import Mathlib

/-
  Verification development for a single-segment dynamic memory allocator
  (explicit free-list engine in explicit.c, implicit engine in a second file).

  The heap is modelled as a word store: `Mem` maps a byte address to the
  64-bit word stored at that address.  All header and link accesses in the
  sources are whole-word accesses at fixed offsets, and `memcpy` is only
  invoked with lengths that are multiples of 8, so a word-granular store is
  exact for every access the code performs.  size_t arithmetic is modulo
  `W = 2^64`; stores truncate modulo `W` like a 64-bit machine word.
  Addresses are natural numbers and the null pointer is address 0.

  Loops are given explicit fuel.  Results live in `Res`: `ok` is a normal
  return, `crash` marks a dereference of the null pointer (undefined
  behavior on the real machine), and `oot` marks fuel exhaustion of the
  model (never undefined behavior of the program).
-/

namespace Allocator

/-- The modulus of size_t arithmetic. -/
def W : Nat := 2 ^ 64

/-- Modelled from the spec: `ALIGNMENT` comes from allocator.h, which is not
among the sources; the spec fixes the word alignment to 8 bytes. -/
def ALIGNMENT : Nat := 8

/-- Word store of the machine: the 64-bit word stored at each byte address. -/
def Mem : Type := Nat → Nat

/-- Store a word at an address.  C wraps at the arithmetic producing a
size_t value, not at the store; the embedding puts an explicit `% W` at
every arithmetic site that can exceed the size_t range. -/
def writeW (m : Mem) (a v : Nat) : Mem := fun x => if x = a then v else m x

/-- The 64-bit value of the C expression `~FREE` (with `FREE = 0b111`),
used by the sources to decode the payload size from a header word. -/
def mask : Nat := W - 8

/-- Value of the C expression `w & FREE` (`FREE = 0b111`): the status bits
of a header word.  The arithmetic form keeps the model reducible;
`statusBits_eq_land` proves it equal to `w &&& 7`. -/
def statusBits (w : Nat) : Nat := w % 8

/-- Value of the C expression `w & ~FREE` in 64-bit size_t arithmetic: the
payload size stored in a header word.  `sizeBits_eq_land` proves it equal
to `w &&& (W - 8)`. -/
def sizeBits (w : Nat) : Nat := w % W - w % 8

/-- Value of the C expression `w | FREE`: the header word with the FREE
bits set.  `markFree_eq_lor` proves it equal to `w ||| 7`. -/
def markFree (w : Nat) : Nat := w - w % 8 + 7

/-- Outcome of running a code fragment: normal result, null-pointer
dereference (undefined behavior), or model fuel exhausted. -/
inductive Res (α : Type) where
  | ok : α → Res α
  | crash : Res α
  | oot : Res α
deriving DecidableEq

instance : Monad Res where
  pure := Res.ok
  bind := fun r f =>
    match r with
    | .ok a => f a
    | .crash => .crash
    | .oot => .oot

/-! ## The explicit free-list allocator (explicit.c) -/

namespace Exp

def MIN_BLOCK_SIZE : Nat := 16
def HEADER_LENGTH : Nat := 8
def FREE : Nat := 7
def USED : Nat := 0
def NON_EXISTENT : Nat := 1

/-- Process-wide state of explicit.c: the segment bounds, the free-list
head and tail, the free-block count, and the memory. -/
structure St where
  segStart : Nat
  segEnd : Nat
  listHead : Nat
  listEnd : Nat
  freeNum : Nat
  mem : Mem

/-- State before any successful `myinit`: everything zero. -/
def initSt : St :=
  { segStart := 0, segEnd := 0, listHead := 0, listEnd := 0, freeNum := 0,
    mem := fun _ => 0 }

/-- Address of the `prev` link word of a free block (explicit.c line 38). -/
def get_curr_prev (curr : Nat) : Nat := curr + HEADER_LENGTH

/-- Address of the `next` link word of a free block (explicit.c line 45). -/
def get_curr_next (curr : Nat) : Nat := curr + HEADER_LENGTH + 8

/-- Address of the previous free block in the list (explicit.c line 50). -/
def get_prev_free_block (m : Mem) (curr : Nat) : Nat := m (get_curr_prev curr)

/-- Address of the next free block in the list (explicit.c line 56). -/
def get_next_free_block (m : Mem) (curr : Nat) : Nat := m (get_curr_next curr)

/-- explicit.c `roundup`: sizes of at most 16 become 16, larger requests are
rounded with `(sz + mult - 1) & ~(mult - 1)` in size_t arithmetic.  For the
power-of-two `mult` the mask drops the remainder modulo `mult`; stated in
arithmetic form so the model reduces, and certified against the bitwise
form (for the only multiple the allocator passes, `ALIGNMENT = 8`) by
`roundup_eq_land`. -/
def roundup (sz mult : Nat) : Nat :=
  if sz ≤ MIN_BLOCK_SIZE then MIN_BLOCK_SIZE
  else (sz + mult - 1) % W - (sz + mult - 1) % mult

/-- The scan of `insert_block_into_freelist` for the insertion point:
`while (list_next < curr) list_next = get_next_free_block(list_next);`. -/
def insertFind (m : Mem) (curr : Nat) : Nat → Nat → Res Nat
  | 0, _ => .oot
  | fuel + 1, list_next =>
    if list_next < curr then insertFind m curr fuel (get_next_free_block m list_next)
    else .ok list_next

/-- explicit.c `insert_block_into_freelist` (lines 77 to 121). -/
def insert_block_into_freelist (fuel : Nat) (s : St) (curr : Nat) : Res St :=
  let s := { s with freeNum := (s.freeNum + 1) % W }
  if s.listHead = 0 then
    let m := writeW (writeW s.mem (get_curr_prev curr) 0) (get_curr_next curr) 0
    .ok { s with mem := m, listHead := curr, listEnd := curr }
  else if curr < s.listHead then
    let m1 := writeW s.mem (get_curr_prev curr) 0
    let m2 := writeW m1 (get_curr_next curr) s.listHead
    let m3 := writeW m2 (get_curr_prev s.listHead) curr
    .ok { s with mem := m3, listHead := curr }
  else if s.listEnd < curr then
    let m1 := writeW s.mem (get_curr_prev curr) s.listEnd
    let m2 := writeW m1 (get_curr_next curr) 0
    let m3 := writeW m2 (get_curr_next s.listEnd) curr
    .ok { s with mem := m3, listEnd := curr }
  else
    match insertFind s.mem curr fuel s.listHead with
    | .ok list_next =>
      let list_prev := get_prev_free_block s.mem list_next
      let m1 := writeW s.mem (get_curr_next list_prev) curr
      let m2 := writeW m1 (get_curr_prev list_next) curr
      let m3 := writeW m2 (get_curr_prev curr) list_prev
      let m4 := writeW m3 (get_curr_next curr) list_next
      .ok { s with mem := m4 }
    | .crash => .crash
    | .oot => .oot

/-- explicit.c `remove_block_from_freelist` (lines 124 to 143).  The count
decrement is size_t arithmetic, so it wraps at zero. -/
def remove_block_from_freelist (s : St) (curr : Nat) : St :=
  let s := { s with freeNum := (s.freeNum + (W - 1)) % W }
  let prev := get_prev_free_block s.mem curr
  let next := get_next_free_block s.mem curr
  let m1 := if prev ≠ 0 then writeW s.mem (get_curr_next prev) next else s.mem
  let m2 := if next ≠ 0 then writeW m1 (get_curr_prev next) prev else m1
  let h := if curr = s.listHead then next else s.listHead
  let e := if curr = s.listEnd then prev else s.listEnd
  { s with mem := m2, listHead := h, listEnd := e }

/-- explicit.c `myinit` (lines 152 to 173). -/
def myinit (s : St) (heap_start heap_size : Nat) : Bool × St :=
  if heap_start = 0 ∨ heap_size < HEADER_LENGTH + MIN_BLOCK_SIZE then (false, s)
  else
    let m1 := writeW s.mem heap_start (markFree (heap_size - HEADER_LENGTH))
    let m2 := writeW m1 (get_curr_prev heap_start) 0
    let m3 := writeW m2 (get_curr_next heap_start) 0
    (true, { segStart := heap_start, segEnd := heap_start + heap_size,
             listHead := heap_start, listEnd := heap_start, freeNum := 1,
             mem := m3 })

/-- The search loop of `mymalloc` (lines 187 to 232).  The continuation
condition is `curr <= list_end`; when `curr` has become the null pointer the
condition still holds (0 is below every address), and the following header
load `*(size_t *)curr` dereferences null, which the model records as
`crash`. -/
def mallocLoop (needed : Nat) : Nat → St → Nat → Res (Nat × St)
  | 0, _, _ => .oot
  | fuel + 1, s, curr =>
    if curr ≤ s.listEnd then
      if curr = 0 then .crash
      else
        let curr_size := sizeBits (s.mem curr)
        if needed ≤ curr_size then
          if curr_size - needed < HEADER_LENGTH + MIN_BLOCK_SIZE then
            let s1 := { s with mem := writeW s.mem curr (sizeBits curr_size) }
            .ok (curr + HEADER_LENGTH, remove_block_from_freelist s1 curr)
          else
            let m1 := writeW s.mem curr (sizeBits needed)
            let new_header := curr + needed + HEADER_LENGTH
            let m2 := writeW m1 new_header (markFree (curr_size - needed - HEADER_LENGTH))
            let prev := get_prev_free_block m2 curr
            let next := get_next_free_block m2 curr
            let m3 := if prev ≠ 0 then writeW m2 (get_curr_next prev) new_header else m2
            let m4 := if next ≠ 0 then writeW m3 (get_curr_prev next) new_header else m3
            let m5 := writeW m4 (get_curr_prev new_header) prev
            let m6 := writeW m5 (get_curr_next new_header) next
            let h := if curr = s.listHead then new_header else s.listHead
            let e := if curr = s.listEnd then new_header else s.listEnd
            .ok (curr + HEADER_LENGTH, { s with mem := m6, listHead := h, listEnd := e })
        else mallocLoop needed fuel s (get_next_free_block s.mem curr)
    else .ok (0, s)

/-- explicit.c `mymalloc` (lines 184 to 235). -/
def mymalloc (fuel : Nat) (s : St) (requested_size : Nat) : Res (Nat × St) :=
  mallocLoop (roundup requested_size ALIGNMENT) fuel s s.listHead

/-- explicit.c `myfree` (lines 244 to 282).  Note that the rightward
coalesce reads the right header with `*(size_t *)right`, including the
status bits, and the merged header is `(curr_size + 8 + right_size) | FREE`
with that un-masked value. -/
def myfree (fuel : Nat) (s : St) (ptr : Nat) : Res St :=
  if ptr = 0 then .ok s
  else
    let curr := ptr - HEADER_LENGTH
    let curr_size := sizeBits (s.mem curr)
    let right := curr + HEADER_LENGTH + curr_size
    let right_status := if right = s.segEnd then NON_EXISTENT else statusBits (s.mem right)
    if right_status = FREE then
      let right_size := s.mem right
      let m1 := writeW s.mem right (sizeBits right_size)
      let m2 := writeW m1 curr (markFree ((curr_size + HEADER_LENGTH + right_size) % W))
      let right_prev := get_prev_free_block m2 right
      let right_next := get_next_free_block m2 right
      let m3 := if right_prev ≠ 0 then writeW m2 (get_curr_next right_prev) curr else m2
      let m4 := if right_next ≠ 0 then writeW m3 (get_curr_prev right_next) curr else m3
      let m5 := writeW m4 (get_curr_prev curr) right_prev
      let m6 := writeW m5 (get_curr_next curr) right_next
      let h := if right = s.listHead then curr else s.listHead
      let e := if right = s.listEnd then curr else s.listEnd
      .ok { s with mem := m6, listHead := h, listEnd := e }
    else
      let m1 := writeW s.mem curr (markFree curr_size)
      insert_block_into_freelist fuel { s with mem := m1 } curr

/-- Word-by-word copy; `memcpy(dst, src, len)` in the sources is only run
with `len` a decoded payload size, hence a multiple of 8 words of 8 bytes. -/
def memcpyWords (m : Mem) (dst src : Nat) : Nat → Mem
  | 0 => m
  | n + 1 => memcpyWords (writeW m dst (m src)) (dst + 8) (src + 8) n

/-- The right-absorption loop of `myrealloc` (lines 302 to 314): while the
right neighbor exists and is FREE, clear its flag, unlink it, and grow the
working size; the header of the current block is not rewritten here. -/
def absorbLoop (curr : Nat) : Nat → St → Nat → Res (St × Nat)
  | 0, _, _ => .oot
  | fuel + 1, s, cur_size =>
    let right := curr + HEADER_LENGTH + cur_size
    if right = s.segEnd then .ok (s, cur_size)
    else if statusBits (s.mem right) = FREE then
      let right_size := sizeBits (s.mem right)
      let s1 := { s with mem := writeW s.mem right (sizeBits right_size) }
      let s2 := remove_block_from_freelist s1 right
      absorbLoop curr fuel s2 ((cur_size + HEADER_LENGTH + right_size) % W)
    else .ok (s, cur_size)

/-- explicit.c `myrealloc` (lines 294 to 340).  In the fallback branch the
source calls `memcpy(new_ptr, old_ptr, old_size)` without checking
`new_ptr` for null; a null destination with a positive length is a null
dereference. -/
def myrealloc (fuel : Nat) (s : St) (old_ptr new_size : Nat) : Res (Nat × St) :=
  if old_ptr = 0 then mymalloc fuel s new_size
  else
    let needed := roundup new_size ALIGNMENT
    let curr := old_ptr - HEADER_LENGTH
    let old_size := sizeBits (s.mem curr)
    match absorbLoop curr fuel s old_size with
    | .crash => .crash
    | .oot => .oot
    | .ok (s1, cur_size) =>
      if needed ≤ cur_size then
        if cur_size - needed < HEADER_LENGTH + MIN_BLOCK_SIZE then
          .ok (old_ptr, { s1 with mem := writeW s1.mem curr (sizeBits cur_size) })
        else
          let m1 := writeW s1.mem curr (sizeBits needed)
          let new_pointer := curr + HEADER_LENGTH + needed
          let m2 := writeW m1 new_pointer (markFree (cur_size - needed - HEADER_LENGTH))
          match insert_block_into_freelist fuel { s1 with mem := m2 } new_pointer with
          | .ok s2 => .ok (old_ptr, s2)
          | .crash => .crash
          | .oot => .oot
      else
        match mymalloc fuel s1 new_size with
        | .crash => .crash
        | .oot => .oot
        | .ok (new_ptr, s2) =>
          if new_ptr = 0 ∧ 0 < old_size then .crash
          else
            let m3 := memcpyWords s2.mem new_ptr old_ptr (old_size / HEADER_LENGTH)
            let m4 := writeW m3 curr (markFree cur_size)
            match myfree fuel { s2 with mem := m4 } old_ptr with
            | .ok s3 => .ok (new_ptr, s3)
            | .crash => .crash
            | .oot => .oot

/-- The walk of `traverse_heap` (lines 354 to 377); returns early failure,
or the final address together with the FREE count. -/
def thLoop (sEnd : Nat) (m : Mem) : Nat → Nat → Nat → Res (Bool × Nat × Nat)
  | 0, _, _ => .oot
  | fuel + 1, ptr, count =>
    if ptr < sEnd then
      let curr_size := sizeBits (m ptr)
      let curr_status := statusBits (m ptr)
      if curr_size < MIN_BLOCK_SIZE then .ok (false, ptr, count)
      else if curr_status ≠ FREE ∧ curr_status ≠ USED then .ok (false, ptr, count)
      else
        thLoop sEnd m fuel (ptr + HEADER_LENGTH + curr_size)
          (if curr_status = FREE then count + 1 else count)
    else .ok (true, ptr, count)

/-- explicit.c `traverse_heap` (lines 351 to 394). -/
def traverse_heap (fuel : Nat) (s : St) : Res Bool :=
  match thLoop s.segEnd s.mem fuel s.segStart 0 with
  | .ok (false, _, _) => .ok false
  | .ok (true, p, c) => .ok (decide (p = s.segEnd) && decide (c = s.freeNum))
  | .crash => .crash
  | .oot => .oot

/-- explicit.c `within_heap_range` (lines 398 to 403). -/
def within_heap_range (sStart sEnd ptr : Nat) : Bool :=
  if ptr = 0 then false else decide (sStart ≤ ptr ∧ ptr ≤ sEnd)

/-- The loop of `traverse_freelist` (lines 421 to 466). -/
def tfLoop (sStart sEnd freeNum : Nat) (m : Mem) (reverse : Bool) :
    Nat → Nat → Nat → Res Bool
  | 0, _, _ => .oot
  | fuel + 1, ptr, count =>
    if count ≤ freeNum then
      let curr_status := statusBits (m ptr)
      if curr_status ≠ FREE then .ok false
      else
        let prev := get_prev_free_block m ptr
        let next := get_next_free_block m ptr
        let test_prev :=
          if ¬reverse then
            if count = 1 then decide (prev = 0) else within_heap_range sStart sEnd prev
          else
            if count = freeNum then decide (prev = 0) else within_heap_range sStart sEnd prev
        let test_next :=
          if ¬reverse then
            if count = freeNum then decide (next = 0) else within_heap_range sStart sEnd next
          else
            if count = 1 then decide (next = 0) else within_heap_range sStart sEnd next
        if ¬test_prev ∨ ¬test_next then .ok false
        else if (prev ≠ 0 ∧ ptr ≤ prev) ∨ (next ≠ 0 ∧ next ≤ ptr) then .ok false
        else tfLoop sStart sEnd freeNum m reverse fuel (if reverse then prev else next) (count + 1)
    else .ok true

/-- explicit.c `traverse_freelist` (lines 414 to 469). -/
def traverse_freelist (fuel : Nat) (s : St) (reverse : Bool) : Res Bool :=
  if s.freeNum = 0 then .ok (decide (s.listHead = 0 ∧ s.listEnd = 0))
  else
    tfLoop s.segStart s.segEnd s.freeNum s.mem reverse fuel
      (if reverse then s.listEnd else s.listHead) 1

/-- explicit.c `validate_heap` (lines 479 to 484). -/
def validate_heap (fuel : Nat) (s : St) : Res Bool := do
  let a ← traverse_heap fuel s
  if ¬a then pure false
  else do
    let b ← traverse_freelist fuel s true
    if ¬b then pure false
    else traverse_freelist fuel s false

end Exp

/-! ## The implicit allocator (the unnamed source file, an implicit free list) -/

namespace Imp

def HEADER_LENGTH : Nat := 8
def FREE : Nat := 7
def USED : Nat := 0

/-- Process-wide state of the implicit allocator: segment bounds and memory. -/
structure St where
  segStart : Nat
  segEnd : Nat
  mem : Mem

/-- State before any successful `myinit`. -/
def initSt : St := { segStart := 0, segEnd := 0, mem := fun _ => 0 }

/-- Implicit `roundup`: requests of at most ALIGNMENT bytes become
ALIGNMENT, larger requests are rounded with `(sz + mult - 1) & ~(mult - 1)`
in size_t arithmetic; arithmetic form as in the explicit engine, certified
by `imp_roundup_eq_land`. -/
def roundup (sz mult : Nat) : Nat :=
  if sz ≤ ALIGNMENT then ALIGNMENT
  else (sz + mult - 1) % W - (sz + mult - 1) % mult

/-- Implicit `myinit` (part_000 lines 49 to 65): fails only when the start
is null or the size is at most the 8-byte header length. -/
def myinit (s : St) (heap_start heap_size : Nat) : Bool × St :=
  if heap_start = 0 ∨ heap_size ≤ HEADER_LENGTH then (false, s)
  else
    (true, { segStart := heap_start, segEnd := heap_start + heap_size,
             mem := writeW s.mem heap_start (markFree (heap_size - HEADER_LENGTH)) })

/-- The block walk of the implicit `mymalloc` (lines 81 to 105). -/
def mallocLoop (needed sEnd : Nat) : Nat → Mem → Nat → Res (Nat × Mem)
  | 0, _, _ => .oot
  | fuel + 1, m, ptr =>
    if ptr < sEnd then
      let curr_size := sizeBits (m ptr)
      let curr_status := statusBits (m ptr)
      if needed ≤ curr_size ∧ curr_status = FREE then
        if curr_size - needed ≤ HEADER_LENGTH then
          .ok (ptr + HEADER_LENGTH, writeW m ptr (sizeBits curr_size))
        else
          let m1 := writeW m ptr (sizeBits needed)
          let m2 := writeW m1 (ptr + HEADER_LENGTH + needed)
            (markFree (curr_size - needed - HEADER_LENGTH))
          .ok (ptr + HEADER_LENGTH, m2)
      else mallocLoop needed sEnd fuel m (ptr + curr_size + HEADER_LENGTH)
    else .ok (0, m)

/-- Implicit `mymalloc` (lines 76 to 109). -/
def mymalloc (fuel : Nat) (s : St) (requested_size : Nat) : Res (Nat × St) :=
  match mallocLoop (roundup requested_size ALIGNMENT) s.segEnd fuel s.mem s.segStart with
  | .ok (p, m) => .ok (p, { s with mem := m })
  | .crash => .crash
  | .oot => .oot

/-- Implicit `myfree` (lines 117 to 122): set the FREE bits of the header. -/
def myfree (m : Mem) (ptr : Nat) : Mem :=
  if ptr = 0 then m
  else writeW m (ptr - HEADER_LENGTH) (markFree (m (ptr - HEADER_LENGTH)))

/-- Word-by-word copy, as in the explicit engine. -/
def memcpyWords (m : Mem) (dst src : Nat) : Nat → Mem
  | 0 => m
  | n + 1 => memcpyWords (writeW m dst (m src)) (dst + 8) (src + 8) n

/-- Implicit `myrealloc` (lines 135 to 156).  The old size is read as the
whole header word `*(size_t *)(old_ptr - 8)` without masking the status
bits.  In the shrink-split branch the source writes only the new trailing
header at `old_ptr + needed`; the header of the current block is NOT
rewritten. -/
def myrealloc (fuel : Nat) (s : St) (old_ptr new_size : Nat) : Res (Nat × St) :=
  if old_ptr = 0 then mymalloc fuel s new_size
  else
    let old_size := s.mem (old_ptr - HEADER_LENGTH)
    let needed := roundup new_size ALIGNMENT
    if needed ≤ old_size then
      if HEADER_LENGTH < old_size - needed then
        let m1 := writeW s.mem (old_ptr + needed) (markFree (old_size - needed - HEADER_LENGTH))
        .ok (old_ptr, { s with mem := m1 })
      else .ok (old_ptr, s)
    else
      match mymalloc fuel s new_size with
      | .ok (new_ptr, s1) =>
        if new_ptr = 0 then .ok (0, s1)
        else
          let m2 := memcpyWords s1.mem new_ptr old_ptr (old_size / HEADER_LENGTH)
          .ok (new_ptr, { s1 with mem := myfree m2 old_ptr })
      | .crash => .crash
      | .oot => .oot

/-- The walk of the implicit `validate_heap` (lines 165 to 189). -/
def vhLoop (sEnd : Nat) (m : Mem) : Nat → Nat → Res (Bool × Nat)
  | 0, _ => .oot
  | fuel + 1, ptr =>
    if ptr < sEnd then
      let curr_size := sizeBits (m ptr)
      let curr_status := statusBits (m ptr)
      if curr_status ≠ FREE ∧ curr_status ≠ USED then .ok (false, ptr)
      else vhLoop sEnd m fuel (ptr + HEADER_LENGTH + curr_size)
    else .ok (true, ptr)

/-- Implicit `validate_heap`. -/
def validate_heap (fuel : Nat) (s : St) : Res Bool :=
  match vhLoop s.segEnd s.mem fuel s.segStart with
  | .ok (false, _) => .ok false
  | .ok (true, p) => .ok (decide (p = s.segEnd))
  | .crash => .crash
  | .oot => .oot

end Imp

/-! ## Concrete scenario states used by the claims -/

namespace Exp

/-- Fresh explicit heap: a segment of 1024 bytes based at address 8. -/
def st0 : St := (myinit initSt 8 1024).2

/-- Result projections of a run, for decidable statements. -/
def runPtr (r : Res (Nat × St)) : Option Nat :=
  match r with
  | .ok (p, _) => some p
  | _ => none

/-- The state of a successful run, or the pristine state on failure. -/
def runSt (r : Res (Nat × St)) : St :=
  match r with
  | .ok (_, s) => s
  | _ => initSt

/-- Memory of a successful run at an address. -/
def runMem (r : Res (Nat × St)) (a : Nat) : Option Nat :=
  match r with
  | .ok (_, s) => some (s.mem a)
  | _ => none

/-- State of a run that returns a bare state, or the pristine state. -/
def stOf (r : Res St) : St :=
  match r with
  | .ok s => s
  | _ => initSt

/-- Whether a bare-state run returned normally. -/
def okOf (r : Res St) : Bool :=
  match r with
  | .ok _ => true
  | _ => false

/-- The scenario of claim C1: `allocate(1016)` takes the whole single free
block, leaving the free list empty. -/
def c1st : St := runSt (mymalloc 50 st0 1016)

/-- Second C1 scenario: `allocate(984)` splits, leaving one 24-byte free
block at 1000; no block fits a request of 100 bytes. -/
def c1bst : St := runSt (mymalloc 50 st0 984)

/-- The scenario of claim C2: `a = allocate(16)` at 16, `allocate(992)`
takes the rest; the free list is empty and `a` has a USED right neighbor. -/
def c2st : St := runSt (mymalloc 50 (runSt (mymalloc 50 st0 16)) 992)

/-- The heap walk of claim C3 after `allocate(2^64 - 1)`. -/
def c3run : Res (Nat × Bool) := do
  let (p, s1) ← mymalloc 9 st0 (2 ^ 64 - 1)
  let v ← validate_heap 100 s1
  pure (p, v)

/-- Claim C4, first-fit scenario: `a = allocate(16)`, `allocate(16)`,
`free(a)`; the free list is then 8 (size 16) before 56 (size 968). -/
def c4st : St :=
  match (do
    let (_, s1) ← mymalloc 50 st0 16
    let (_, s2) ← mymalloc 50 s1 16
    myfree 50 s2 16 : Res St) with
  | .ok s => s
  | _ => initSt

/-- Claim C7 run: three 16-byte allocations, then free the first two
blocks left to right; their right neighbors are USED both times. -/
def c7run : Res St := do
  let (_, s1) ← mymalloc 50 st0 16
  let (_, s2) ← mymalloc 50 s1 16
  let (_, s3) ← mymalloc 50 s2 16
  let s4 ← myfree 50 s3 16
  myfree 50 s4 40

/-- Claim C9 scenario: `a = allocate(16)` at 16, `b = allocate(16)` at 40,
a USED barrier at 64, then `free(b)`; `a` has one FREE right neighbor of
payload 16 and the large free block at 80 is the only other free block. -/
def c9st : St :=
  match (do
    let (_, s1) ← mymalloc 50 st0 16
    let (_, s2) ← mymalloc 50 s1 16
    let (_, s3) ← mymalloc 50 s2 16
    myfree 50 s3 40 : Res St) with
  | .ok s => s
  | _ => initSt

/-- Claim C9 run: user words `v0 v1` sit in the payload of `a`; reallocate
`a` to 200 bytes.  Absorption consumes the 16-byte FREE neighbor (40 total
payload), which is still short of 200, so the fallback allocates at 88,
copies the ORIGINAL 16 bytes, and frees the widened old block. -/
def c9run (fuel v0 v1 : Nat) : Res (Nat × St) :=
  myrealloc fuel { c9st with mem := writeW (writeW c9st.mem 16 v0) 24 v1 } 16 200

end Exp

namespace Imp

/-- Result projections for the implicit allocator. -/
def runPtr (r : Res (Nat × St)) : Option Nat :=
  match r with
  | .ok (p, _) => some p
  | _ => none

def runSt (r : Res (Nat × St)) : St :=
  match r with
  | .ok (_, s) => s
  | _ => initSt

def runMem (r : Res (Nat × St)) (a : Nat) : Option Nat :=
  match r with
  | .ok (_, s) => some (s.mem a)
  | _ => none

/-- Fresh implicit heap: a segment of 1024 bytes based at address 8. -/
def ist0 : St := (myinit initSt 8 1024).2

/-- Claim C8 scenario: `p = allocate(100)` returns 16 with header 104 at 8;
then `reallocate(p, 40)`. -/
def c8run : Res (Nat × St) :=
  myrealloc 50 (runSt (mymalloc 50 ist0 100)) 16 40

end Imp

end Allocator

/-! ## Bit-level toolkit: the arithmetic codec equals the C bit operations -/

namespace Allocator

theorem land_two_pow_sub_one (x n : Nat) : x &&& (2 ^ n - 1) = x % 2 ^ n := by
  apply Nat.eq_of_testBit_eq
  intro i
  rw [Nat.testBit_land, Nat.testBit_two_pow_sub_one, Nat.testBit_mod_two_pow, Bool.and_comm]

theorem land_seven (x : Nat) : x &&& 7 = x % 8 := by
  have h : (7 : Nat) = 2 ^ 3 - 1 := by norm_num
  have h2 : (8 : Nat) = 2 ^ 3 := by norm_num
  rw [h, h2, land_two_pow_sub_one]

theorem land_mask_of_lt (x : Nat) (hx : x < W) : x &&& mask = x - x % 8 := by
  have e1 : (mask : Nat) = (2 ^ 61 - 1) <<< 3 := by
    rw [Nat.shiftLeft_eq, mask, W]; norm_num
  have e2 : x - x % 8 = (x >>> 3) <<< 3 := by
    rw [Nat.shiftLeft_eq, Nat.shiftRight_eq_div_pow]
    have h3 := Nat.div_add_mod x 8
    norm_num
    omega
  rw [e1, e2]
  apply Nat.eq_of_testBit_eq
  intro i
  rw [Nat.testBit_land, Nat.testBit_shiftLeft, Nat.testBit_shiftLeft, Nat.testBit_shiftRight,
    Nat.testBit_two_pow_sub_one]
  by_cases h3 : 3 ≤ i
  · by_cases h64 : i < 64
    · have ha : i - 3 < 61 := by omega
      have hb : 3 + (i - 3) = i := by omega
      simp [h3, ha, hb]
    · have hx' : x.testBit i = false :=
        Nat.testBit_lt_two_pow (lt_of_lt_of_le hx (Nat.pow_le_pow_right (by norm_num) (by omega)))
      have ha : ¬(i - 3 < 61) := by omega
      have hb : 3 + (i - 3) = i := by omega
      simp [h3, ha, hb, hx']
  · simp [h3]

theorem land_mask_mod_W (x : Nat) : (x % W) &&& mask = x &&& mask := by
  have hm : (mask : Nat) < W := by decide
  apply Nat.eq_of_testBit_eq
  intro i
  rw [Nat.testBit_land, Nat.testBit_land]
  by_cases h64 : i < 64
  · have hW : W = 2 ^ 64 := rfl
    rw [hW, Nat.testBit_mod_two_pow]
    simp [h64]
  · have h1 : Nat.testBit mask i = false :=
      Nat.testBit_lt_two_pow (lt_of_lt_of_le hm (Nat.pow_le_pow_right (by norm_num) (by omega)))
    simp [h1]

/-- The status decode of the sources, `w & FREE`, equals the model's `statusBits`. -/
theorem statusBits_eq_land (w : Nat) : statusBits w = w &&& 7 := by
  rw [land_seven, statusBits]

/-- The size decode of the sources, `w & ~FREE` on 64-bit words, equals the
model's `sizeBits`. -/
theorem sizeBits_eq_land (w : Nat) : sizeBits w = w &&& mask := by
  rw [sizeBits, ← land_mask_mod_W, land_mask_of_lt _ (Nat.mod_lt _ (by decide)),
    Nat.mod_mod_of_dvd w (by decide : (8 : Nat) ∣ W)]

theorem or_seven_of_mod (x : Nat) (h8 : x % 8 = 0) : x ||| 7 = x + 7 := by
  apply Nat.eq_of_testBit_eq
  intro i
  have t7 : (7 : Nat).testBit i = decide (i < 3) := by
    have h7 : (7 : Nat) = 2 ^ 3 - 1 := by norm_num
    rw [h7, Nat.testBit_two_pow_sub_one]
  rw [Nat.testBit_lor, t7]
  by_cases h3 : i < 3
  · have ht : (x + 7).testBit i = true := by
      rw [Nat.testBit_to_div_mod]
      interval_cases i <;> simp <;> omega
    simp [h3, ht]
  · have hd8 : (8 : Nat) ∣ 2 ^ i := by
      have hdd : (2 : Nat) ^ 3 ∣ 2 ^ i := Nat.pow_dvd_pow 2 (by omega)
      simpa using hdd
    have hd0 : 0 < 2 ^ i := Nat.pos_pow_of_pos i (by norm_num)
    have hkey : (x + 7) / 2 ^ i = x / 2 ^ i := by
      obtain ⟨k, hk⟩ := hd8
      have hq := Nat.div_add_mod x (2 ^ i)
      have hmm : x % 2 ^ i % 8 = 0 := by
        rw [Nat.mod_mod_of_dvd x ⟨k, hk⟩, h8]
      have hlt : x % 2 ^ i < 2 ^ i := Nat.mod_lt _ hd0
      have hlt2 : x % 2 ^ i + 7 < 2 ^ i := by omega
      have h1 : x + 7 = (x % 2 ^ i + 7) + 2 ^ i * (x / 2 ^ i) := by omega
      rw [h1, Nat.add_mul_div_left _ _ hd0, Nat.div_eq_of_lt hlt2]
      omega
    rw [Nat.testBit_to_div_mod, Nat.testBit_to_div_mod, hkey]
    simp [h3]

theorem lor_seven_drop_low (x : Nat) : x ||| 7 = (x - x % 8) ||| 7 := by
  apply Nat.eq_of_testBit_eq
  intro i
  have t7 : (7 : Nat).testBit i = decide (i < 3) := by
    have h7 : (7 : Nat) = 2 ^ 3 - 1 := by norm_num
    rw [h7, Nat.testBit_two_pow_sub_one]
  rw [Nat.testBit_lor, Nat.testBit_lor, t7]
  by_cases h3 : i < 3
  · simp [h3]
  · have hd8 : (8 : Nat) ∣ 2 ^ i := by
      have hdd : (2 : Nat) ^ 3 ∣ 2 ^ i := Nat.pow_dvd_pow 2 (by omega)
      simpa using hdd
    have hd0 : 0 < 2 ^ i := Nat.pos_pow_of_pos i (by norm_num)
    have hkey : (x - x % 8) / 2 ^ i = x / 2 ^ i := by
      obtain ⟨k, hk⟩ := hd8
      have hq := Nat.div_add_mod x (2 ^ i)
      have hmm : x % 2 ^ i % 8 = x % 8 := Nat.mod_mod_of_dvd x ⟨k, hk⟩
      have hlt : x % 2 ^ i < 2 ^ i := Nat.mod_lt _ hd0
      have h8 : x % 8 ≤ x % 2 ^ i := by omega
      have h1 : x - x % 8 = (x % 2 ^ i - x % 8) + 2 ^ i * (x / 2 ^ i) := by omega
      rw [h1, Nat.add_mul_div_left _ _ hd0, Nat.div_eq_of_lt (by omega)]
      omega
    rw [Nat.testBit_to_div_mod, Nat.testBit_to_div_mod, hkey]

/-- The FREE marking of the sources, `w | FREE`, equals the model's `markFree`. -/
theorem markFree_eq_lor (w : Nat) : markFree w = w ||| 7 := by
  rw [markFree, lor_seven_drop_low, or_seven_of_mod _ (by omega)]

/-- The explicit `roundup` computes exactly the bit expression of the
source, `((sz + 8 - 1) mod 2^64) & ~(8 - 1)`, at the alignment the
allocator passes. -/
theorem roundup_eq_land (sz : Nat) :
    Exp.roundup sz ALIGNMENT =
      if sz ≤ Exp.MIN_BLOCK_SIZE then Exp.MIN_BLOCK_SIZE
      else ((sz + 8 - 1) % W) &&& (W - 8) := by
  rw [Exp.roundup, ALIGNMENT]
  by_cases h : sz ≤ Exp.MIN_BLOCK_SIZE
  · simp [h]
  · rw [if_neg h, if_neg h]
    have hmm : (W - 8 : Nat) = mask := rfl
    rw [hmm, ← land_mask_mod_W, land_mask_of_lt _ (Nat.mod_lt _ (by decide)),
      Nat.mod_mod_of_dvd _ (by decide : (8 : Nat) ∣ W),
      Nat.mod_mod_of_dvd _ (by decide : (8 : Nat) ∣ W), Nat.mod_mod_of_dvd _ (dvd_refl W)]

/-- The implicit `roundup` likewise computes the bit expression of its
source at alignment 8. -/
theorem imp_roundup_eq_land (sz : Nat) :
    Imp.roundup sz ALIGNMENT =
      if sz ≤ ALIGNMENT then ALIGNMENT
      else ((sz + 8 - 1) % W) &&& (W - 8) := by
  rw [Imp.roundup, ALIGNMENT]
  by_cases h : sz ≤ 8
  · simp [h]
  · rw [if_neg h, if_neg h]
    have hmm : (W - 8 : Nat) = mask := rfl
    rw [hmm, ← land_mask_mod_W, land_mask_of_lt _ (Nat.mod_lt _ (by decide)),
      Nat.mod_mod_of_dvd _ (by decide : (8 : Nat) ∣ W),
      Nat.mod_mod_of_dvd _ (by decide : (8 : Nat) ∣ W), Nat.mod_mod_of_dvd _ (dvd_refl W)]

theorem writeW_eq (m : Mem) (a v : Nat) : writeW m a v a = v := by
  simp [writeW]

theorem writeW_eq2 (m : Mem) (a v b : Nat) (h : b = a) : writeW m a v b = v := by
  simp [writeW, h]

theorem writeW_ne (m : Mem) (a v b : Nat) (h : b ≠ a) : writeW m a v b = m b := by
  simp [writeW, h]

end Allocator

/-! ## Claim theorems: concrete scenarios -/

namespace Allocator

/-- C1 (code_bug evidence): in the explicit engine, when no free block of
sufficient payload size exists `mymalloc` does not return none with the
heap unchanged: its search loop condition `curr <= list_end` still holds
when `curr` has become the null pointer (0 is below every address, and
0 <= 0 when the list is empty), so the loop dereferences null.  After
`init(8,1024)` and `allocate(1016)` the free list is empty (head = tail =
0, count 0) and `mymalloc 8` crashes for every fuel; after `allocate(984)`
one 24-byte free block remains and `mymalloc 100` walks past it to the
null next pointer and crashes as well.  The `return NULL` line of the
source is unreachable from these states. -/
theorem c1_malloc_no_fit_crashes :
    (Exp.runPtr (Exp.mymalloc 50 Exp.st0 1016) = some 16 ∧
      Exp.c1st.listHead = 0 ∧ Exp.c1st.listEnd = 0 ∧ Exp.c1st.freeNum = 0) ∧
    (∀ f : Nat, Exp.mymalloc (f + 1) Exp.c1st 8 = Res.crash) ∧
    (Exp.runPtr (Exp.mymalloc 50 Exp.st0 984) = some 16 ∧
      Exp.c1bst.listHead = 1000 ∧ Exp.c1bst.listEnd = 1000 ∧ Exp.c1bst.freeNum = 1) ∧
    (∀ f : Nat, Exp.mymalloc (f + 2) Exp.c1bst 100 = Res.crash) := by
  refine ⟨by decide, fun f => ?_, by decide, fun f => ?_⟩
  · have h1 : Exp.c1st.listHead = 0 := by decide
    have h2 : Exp.c1st.listEnd = 0 := by decide
    simp [Exp.mymalloc, h1, Exp.mallocLoop, h2]
  · have h1 : Exp.c1bst.listHead = 1000 := by decide
    have h2 : Exp.c1bst.listEnd = 1000 := by decide
    have h3 : Exp.c1bst.mem 1000 = 31 := by decide
    have h4 : Exp.c1bst.mem 1016 = 0 := by decide
    have h5 : Exp.roundup 100 ALIGNMENT = 104 := by decide
    simp [Exp.mymalloc, h1, h2, h5, Exp.mallocLoop, Exp.get_next_free_block,
      Exp.get_curr_next, Exp.HEADER_LENGTH, h3, h4, sizeBits, W]

/-- C2 (code_bug evidence): in the explicit engine, when the fallback
allocation inside `myrealloc` finds no fitting block, `reallocate` does not
return none with the original block intact: the fallback `mymalloc` crashes
on the null pointer (see C1) before any NULL check could run — and the
source has no NULL check before `memcpy(new_ptr, old_ptr, old_size)` in any
case.  Scenario: `a = allocate(16)` at 16, `allocate(992)` exhausts the
heap, then `reallocate(a, 100)` crashes for every fuel. -/
theorem c2_realloc_fallback_crashes :
    (Exp.runPtr (Exp.mymalloc 50 Exp.st0 16) = some 16 ∧
      Exp.runPtr (Exp.mymalloc 50 (Exp.runSt (Exp.mymalloc 50 Exp.st0 16)) 992) = some 40 ∧
      Exp.c2st.listHead = 0 ∧ Exp.c2st.freeNum = 0 ∧
      statusBits (Exp.c2st.mem 8) = Exp.USED ∧ sizeBits (Exp.c2st.mem 8) = 16) ∧
    ∀ f : Nat, Exp.myrealloc (f + 1) Exp.c2st 16 100 = Res.crash := by
  refine ⟨by decide, fun f => ?_⟩
  have h1 : Exp.c2st.mem 8 = 16 := by decide
  have h2 : Exp.c2st.mem 32 = 992 := by decide
  have h3 : Exp.c2st.segEnd = 1032 := by decide
  have h4 : Exp.c2st.listHead = 0 := by decide
  have h5 : Exp.c2st.listEnd = 0 := by decide
  have h6 : Exp.roundup 100 ALIGNMENT = 104 := by decide
  simp [Exp.myrealloc, Exp.mymalloc, Exp.absorbLoop, Exp.mallocLoop, h1, h2, h3, h4, h5, h6,
    Exp.HEADER_LENGTH, Exp.FREE, Exp.USED, Exp.NON_EXISTENT, Exp.MIN_BLOCK_SIZE,
    sizeBits, statusBits, W]

/-- C3 (code_bug evidence): after the call sequence `init(8,1024)`;
`allocate(2^64 - 1)` — a sequence of calls that both succeed, the second
returning pointer 16 — `validate_heap()` returns false: the rounded size
overflowed to 0 and the allocation wrote a USED header of payload size 0,
below the 16-byte minimum block size the walker checks. -/
theorem c3_validate_heap_false_after_overflow :
    Exp.c3run = Res.ok (16, false) := by decide

/-- C6 (counterexample): the implicit variant accepts `init` with segment
size 9, although 9 is smaller than one header plus the 8-byte minimum
block claimed by the spec (8 + 8 = 16): its guard only rejects sizes of at
most 8. -/
theorem c6_counterexample_implicit_init_nine :
    (Imp.myinit Imp.initSt 8 9).1 = true ∧ (9 : Nat) < 8 + 8 := by decide

/-- C7 (counterexample): after `init(8,1024)`, three 16-byte allocations
at 16, 40 and 64, then `free(16)` and `free(40)` — every call valid and
respecting the spec's preconditions — the walk-adjacent blocks at 8 and at
32 are both FREE: the block at 8 has payload 16, so its right neighbor in
the walk starts at 8 + 8 + 16 = 32, and both headers carry status FREE.
The no-two-adjacent-FREE invariant fails on the code. -/
theorem c7_counterexample_adjacent_free_pair :
    Exp.okOf Exp.c7run = true ∧
    statusBits ((Exp.stOf Exp.c7run).mem 8) = Exp.FREE ∧
    sizeBits ((Exp.stOf Exp.c7run).mem 8) = 16 ∧
    statusBits ((Exp.stOf Exp.c7run).mem 32) = Exp.FREE := by decide

/-- C8 (code_bug evidence): the implicit `myrealloc`, shrinking in place
with `cur_size = 104 >= need = 40` and leftover `64 > 8`, returns the old
pointer and writes the trailing FREE header `56 | FREE = 63` at
`old_ptr + needed = 56` — but never rewrites the block's own header, which
still reads `104 | USED` instead of the `40 | USED` the claim (and the
spec's split step) requires.  The buried free block is unreachable by the
heap walker, which jumps from 8 directly to 8 + 8 + 104 = 120. -/
theorem c8_implicit_shrink_header_not_rewritten :
    Imp.runPtr (Imp.mymalloc 50 Imp.ist0 100) = some 16 ∧
    Imp.runMem (Imp.mymalloc 50 Imp.ist0 100) 8 = some 104 ∧
    Imp.runPtr Imp.c8run = some 16 ∧
    Imp.runMem Imp.c8run 8 = some 104 ∧
    Imp.runMem Imp.c8run 56 = some 63 ∧
    (104 : Nat) ≠ 40 := by decide

/-- C10: for requests above 16 bytes, the explicit `roundup` computes
`(sz + 7) & ~7` in modulo-2^64 arithmetic with no overflow guard; for every
`sz` in `[2^64 - 7, 2^64 - 1]` the result is 0 — strictly below `sz` and
below the 16-byte minimum payload — and on a fresh 1024-byte heap at 8,
`mymalloc sz` then succeeds, returning `start + 8 = 16` and writing the
USED header 0 (payload size 0, status USED) at the segment start. -/
theorem c10_roundup_overflow_makes_zero_block :
    (∀ sz : Nat, 16 < sz →
      Exp.roundup sz ALIGNMENT = ((sz + 7) % W) &&& (W - 8)) ∧
    (∀ sz : Nat, W - 7 ≤ sz → sz < W →
      Exp.roundup sz ALIGNMENT = 0 ∧ Exp.roundup sz ALIGNMENT < sz ∧
        Exp.roundup sz ALIGNMENT < Exp.MIN_BLOCK_SIZE) ∧
    (∀ sz : Nat, W - 7 ≤ sz → sz < W →
      Exp.runPtr (Exp.mymalloc 9 Exp.st0 sz) = some 16 ∧
      Exp.runMem (Exp.mymalloc 9 Exp.st0 sz) 8 = some 0 ∧
      statusBits 0 = Exp.USED ∧ sizeBits 0 = 0) := by
  refine ⟨fun sz hsz => ?_, fun sz h1 h2 => ?_, fun sz h1 h2 => ?_⟩
  · rw [roundup_eq_land, if_neg (by simp [Exp.MIN_BLOCK_SIZE]; omega)]
    have h7 : sz + 8 - 1 = sz + 7 := by omega
    rw [h7]
  · have hW : W = 2 ^ 64 := rfl
    rw [hW] at h1 h2
    interval_cases sz <;> exact ⟨by decide, by decide, by decide⟩
  · have hW : W = 2 ^ 64 := rfl
    rw [hW] at h1 h2
    interval_cases sz <;> exact ⟨by decide, by decide, by decide, by decide⟩

/-- Witness for C10 at the concrete request `2^64 - 1`. -/
theorem c10_witness :
    Exp.roundup (2 ^ 64 - 1) ALIGNMENT = 0 ∧
    Exp.runPtr (Exp.mymalloc 9 Exp.st0 (2 ^ 64 - 1)) = some 16 ∧
    Exp.runMem (Exp.mymalloc 9 Exp.st0 (2 ^ 64 - 1)) 8 = some 0 :=
  ⟨(c10_roundup_overflow_makes_zero_block.2.1 (2 ^ 64 - 1) (by decide) (by decide)).1,
   (c10_roundup_overflow_makes_zero_block.2.2 (2 ^ 64 - 1) (by decide) (by decide)).1,
   (c10_roundup_overflow_makes_zero_block.2.2 (2 ^ 64 - 1) (by decide) (by decide)).2.1⟩

/-! ## The rightward coalesce of myfree, characterized -/

/-- General behavior of `myfree p` when the block at `p - 8` (of decoded
payload `cs`) has an existing FREE right neighbor whose header word is
`rh`, with prev/next links `rp`/`rn`.  The hypotheses `hrpd`/`hrnd` say the
neighbors' link fields do not alias the current block (true in any valid
heap, where `rp` sits strictly left of the current block and `rn` strictly
right of the neighbor).  The merged block is based at `p - 8`, carries
payload `cs + 8 + sizeBits rh`, is FREE, and takes over the neighbor's
free-list slot, patching the neighbors and head/tail; the count is
unchanged and all other memory is untouched. -/
theorem myfree_coalesce (fuel : Nat) (s : Exp.St) (curr : Nat)
    (cs : Nat) (hcs : cs = sizeBits (s.mem curr)) (hs16 : 16 ≤ cs)
    (hre : curr + 8 + cs ≠ s.segEnd)
    (rh : Nat) (hrh : rh = s.mem (curr + 8 + cs)) (hfree : statusBits rh = Exp.FREE)
    (rp : Nat) (hrp : rp = s.mem (curr + 8 + cs + 8))
    (rn : Nat) (hrn : rn = s.mem (curr + 8 + cs + 16))
    (hrpd : rp = 0 ∨ rp + 16 < curr)
    (hrnd : rn = 0 ∨ curr + 8 + cs < rn)
    (hovf : cs + 8 + rh < W) :
    ∃ s', Exp.myfree fuel s (curr + 8) = Res.ok s' ∧
      s'.mem curr = cs + 8 + rh ∧
      sizeBits (s'.mem curr) = cs + 8 + sizeBits rh ∧
      statusBits (s'.mem curr) = Exp.FREE ∧
      s'.mem (curr + 8) = rp ∧
      s'.mem (curr + 16) = rn ∧
      (rp ≠ 0 → s'.mem (rp + 16) = curr) ∧
      (rn ≠ 0 → s'.mem (rn + 8) = curr) ∧
      s'.listHead = (if curr + 8 + cs = s.listHead then curr else s.listHead) ∧
      s'.listEnd = (if curr + 8 + cs = s.listEnd then curr else s.listEnd) ∧
      s'.freeNum = s.freeNum ∧
      s'.segStart = s.segStart ∧ s'.segEnd = s.segEnd ∧
      (∀ a, a ≠ curr → a ≠ curr + 8 → a ≠ curr + 16 → a ≠ curr + 8 + cs →
        a ≠ rp + 16 → a ≠ rn + 8 → s'.mem a = s.mem a) := by
  have hW : W = 2 ^ 64 := rfl
  have hcs8 : cs % 8 = 0 := by
    have hmm := Nat.mod_mod_of_dvd (s.mem curr) (by decide : (8 : Nat) ∣ W)
    rw [hcs, sizeBits]
    omega
  have hrh8 : rh % 8 = 7 := by
    rw [statusBits, Exp.FREE] at hfree; exact hfree
  have hrhW : rh < W := by omega
  have hv : markFree ((cs + 8 + rh) % W) = cs + 8 + rh := by
    rw [markFree, Nat.mod_eq_of_lt hovf]; omega
  have hdec : sizeBits (cs + 8 + rh) = cs + 8 + sizeBits rh := by
    have e1 := Nat.mod_eq_of_lt hovf
    have e2 := Nat.mod_eq_of_lt hrhW
    rw [sizeBits, sizeBits, e1, e2]
    omega
  have hst : statusBits (cs + 8 + rh) = Exp.FREE := by
    rw [statusBits, Exp.FREE]; omega
  simp only [Exp.myfree, Exp.HEADER_LENGTH, Exp.MIN_BLOCK_SIZE, Exp.NON_EXISTENT,
    Exp.get_curr_prev, Exp.get_curr_next, Exp.get_prev_free_block, Exp.get_next_free_block]
  rw [if_neg (by omega : ¬(curr + 8 = 0))]
  rw [Nat.add_sub_cancel]
  rw [← hcs, if_neg hre, ← hrh, hfree, if_pos rfl]
  have hA : writeW (writeW s.mem (curr + 8 + cs) (sizeBits rh)) curr
      (markFree ((cs + 8 + rh) % W)) (curr + 8 + cs + 8) = rp := by
    rw [writeW_ne _ _ _ _ (by omega), writeW_ne _ _ _ _ (by omega)]
    exact hrp.symm
  have hB : writeW (writeW s.mem (curr + 8 + cs) (sizeBits rh)) curr
      (markFree ((cs + 8 + rh) % W)) (curr + 8 + cs + 16) = rn := by
    rw [writeW_ne _ _ _ _ (by omega), writeW_ne _ _ _ _ (by omega)]
    exact hrn.symm
  rw [hA, hB]
  by_cases hrp0 : rp = 0 <;> by_cases hrn0 : rn = 0
  · rw [if_neg (by omega : ¬(rp ≠ 0)), if_neg (by omega : ¬(rn ≠ 0))]
    refine ⟨_, rfl, ?_, ?_, ?_, ?_, ?_, fun h => absurd hrp0 h, fun h => absurd hrn0 h,
      rfl, rfl, rfl, rfl, rfl, ?_⟩
    · simp (disch := omega) only [writeW_ne, writeW_eq]
      exact hv
    · simp (disch := omega) only [writeW_ne, writeW_eq, hv]
      exact hdec
    · simp (disch := omega) only [writeW_ne, writeW_eq, hv]
      exact hst
    · simp (disch := omega) only [writeW_ne, writeW_eq]
    · simp (disch := omega) only [writeW_ne, writeW_eq]
    · intro a h1 h2 h3 h4 h5 h6
      simp (disch := omega) only [writeW_ne]
  · have hrnlt : curr + 8 + cs < rn := by omega
    rw [if_neg (by omega : ¬(rp ≠ 0)), if_pos hrn0]
    refine ⟨_, rfl, ?_, ?_, ?_, ?_, ?_, fun h => absurd hrp0 h, fun _ => ?_,
      rfl, rfl, rfl, rfl, rfl, ?_⟩
    · simp (disch := omega) only [writeW_ne, writeW_eq]
      exact hv
    · simp (disch := omega) only [writeW_ne, writeW_eq, hv]
      exact hdec
    · simp (disch := omega) only [writeW_ne, writeW_eq, hv]
      exact hst
    · simp (disch := omega) only [writeW_ne, writeW_eq]
    · simp (disch := omega) only [writeW_ne, writeW_eq]
    · simp (disch := omega) only [writeW_ne, writeW_eq]
    · intro a h1 h2 h3 h4 h5 h6
      simp (disch := omega) only [writeW_ne]
  · have hrplt : rp + 16 < curr := by omega
    rw [if_pos hrp0, if_neg (by omega : ¬(rn ≠ 0))]
    refine ⟨_, rfl, ?_, ?_, ?_, ?_, ?_, fun _ => ?_, fun h => absurd hrn0 h,
      rfl, rfl, rfl, rfl, rfl, ?_⟩
    · simp (disch := omega) only [writeW_ne, writeW_eq]
      exact hv
    · simp (disch := omega) only [writeW_ne, writeW_eq, hv]
      exact hdec
    · simp (disch := omega) only [writeW_ne, writeW_eq, hv]
      exact hst
    · simp (disch := omega) only [writeW_ne, writeW_eq]
    · simp (disch := omega) only [writeW_ne, writeW_eq]
    · simp (disch := omega) only [writeW_ne, writeW_eq]
    · intro a h1 h2 h3 h4 h5 h6
      simp (disch := omega) only [writeW_ne]
  · have hrplt : rp + 16 < curr := by omega
    have hrnlt : curr + 8 + cs < rn := by omega
    rw [if_pos hrp0, if_pos hrn0]
    refine ⟨_, rfl, ?_, ?_, ?_, ?_, ?_, fun _ => ?_, fun _ => ?_,
      rfl, rfl, rfl, rfl, rfl, ?_⟩
    · simp (disch := omega) only [writeW_ne, writeW_eq]
      exact hv
    · simp (disch := omega) only [writeW_ne, writeW_eq, hv]
      exact hdec
    · simp (disch := omega) only [writeW_ne, writeW_eq, hv]
      exact hst
    · simp (disch := omega) only [writeW_ne, writeW_eq]
    · simp (disch := omega) only [writeW_ne, writeW_eq]
    · simp (disch := omega) only [writeW_ne, writeW_eq]
    · simp (disch := omega) only [writeW_ne, writeW_eq]
    · intro a h1 h2 h3 h4 h5 h6
      simp (disch := omega) only [writeW_ne]

/-- The other branch of `myfree`: when the right neighbor is absent or not
FREE, the block is marked FREE and handed to the address-ordered insert. -/
theorem myfree_insert_case (fuel : Nat) (s : Exp.St) (curr cs : Nat)
    (hcs : cs = sizeBits (s.mem curr))
    (hns : curr + 8 + cs = s.segEnd ∨ statusBits (s.mem (curr + 8 + cs)) ≠ Exp.FREE) :
    Exp.myfree fuel s (curr + 8) =
      Exp.insert_block_into_freelist fuel
        { s with mem := writeW s.mem curr (markFree cs) } curr := by
  simp only [Exp.myfree, Exp.HEADER_LENGTH, Exp.NON_EXISTENT]
  rw [if_neg (by omega : ¬(curr + 8 = 0))]
  rw [Nat.add_sub_cancel, ← hcs]
  by_cases hse : curr + 8 + cs = s.segEnd
  · rw [if_pos hse, if_neg (by decide : ¬((1 : Nat) = Exp.FREE))]
  · have hst : ¬(statusBits (s.mem (curr + 8 + cs)) = Exp.FREE) := by tauto
    rw [if_neg hse, if_neg hst]

/-- C5: freeing a block whose right neighbor exists and is FREE merges the
two into a single FREE block based at `p - 8` with payload
`s + 8 + right_size`, occupying the right neighbor's free-list slot: its
prev/next are the neighbor's prior links, those neighbors are patched to
point at the new base, head/tail are updated exactly when the neighbor was
head or tail, and the free count is unchanged; when the right neighbor is
absent (segment end) or USED, `myfree` marks the block FREE and inserts it
into the address-ordered free list. -/
theorem c5_free_right_coalesce_or_insert :
    (∀ (fuel : Nat) (s : Exp.St) (curr cs rh rp rn : Nat),
      cs = sizeBits (s.mem curr) → 16 ≤ cs →
      curr + 8 + cs ≠ s.segEnd →
      rh = s.mem (curr + 8 + cs) → statusBits rh = Exp.FREE →
      rp = s.mem (curr + 8 + cs + 8) → rn = s.mem (curr + 8 + cs + 16) →
      (rp = 0 ∨ rp + 16 < curr) → (rn = 0 ∨ curr + 8 + cs < rn) →
      cs + 8 + rh < W →
      ∃ s', Exp.myfree fuel s (curr + 8) = Res.ok s' ∧
        sizeBits (s'.mem curr) = cs + 8 + sizeBits rh ∧
        statusBits (s'.mem curr) = Exp.FREE ∧
        s'.mem (curr + 8) = rp ∧
        s'.mem (curr + 16) = rn ∧
        (rp ≠ 0 → s'.mem (rp + 16) = curr) ∧
        (rn ≠ 0 → s'.mem (rn + 8) = curr) ∧
        s'.listHead = (if curr + 8 + cs = s.listHead then curr else s.listHead) ∧
        s'.listEnd = (if curr + 8 + cs = s.listEnd then curr else s.listEnd) ∧
        s'.freeNum = s.freeNum) ∧
    (∀ (fuel : Nat) (s : Exp.St) (curr cs : Nat),
      cs = sizeBits (s.mem curr) →
      (curr + 8 + cs = s.segEnd ∨ statusBits (s.mem (curr + 8 + cs)) ≠ Exp.FREE) →
      Exp.myfree fuel s (curr + 8) =
        Exp.insert_block_into_freelist fuel
          { s with mem := writeW s.mem curr (markFree cs) } curr) := by
  constructor
  · intro fuel s curr cs rh rp rn hcs hs16 hre hrh hfree hrp hrn hrpd hrnd hovf
    obtain ⟨s', h1, _, h3, h4, h5, h6, h7, h8, h9, h10, h11, _, _, _⟩ :=
      myfree_coalesce fuel s curr cs hcs hs16 hre rh hrh hfree rp hrp rn hrn hrpd hrnd hovf
    exact ⟨s', h1, h3, h4, h5, h6, h7, h8, h9, h10, h11⟩
  · intro fuel s curr cs hcs hns
    exact myfree_insert_case fuel s curr cs hcs hns

/-- Witness for C5 at a concrete heap: in the C9 scenario state
(`a` USED with payload 16 at 8, FREE neighbor at 32), `free(16)` returns
normally with the merged 40-byte FREE block; and in the C2 scenario state
(everything USED), `free(16)` equals the insert path. -/
theorem c5_witness :
    (∃ s', Exp.myfree 50 Exp.c9st (8 + 8) = Res.ok s' ∧
      sizeBits (s'.mem 8) = 16 + 8 + sizeBits 23) ∧
    Exp.myfree 50 Exp.c2st (8 + 8) =
      Exp.insert_block_into_freelist 50
        { Exp.c2st with mem := writeW Exp.c2st.mem 8 (markFree 16) } 8 := by
  constructor
  · obtain ⟨s', h1, h2, _⟩ :=
      c5_free_right_coalesce_or_insert.1 50 Exp.c9st 8 16 23 0 80
        (by decide) (by decide) (by decide) (by decide) (by decide) (by decide)
        (by decide) (Or.inl rfl) (Or.inr (by decide)) (by decide)
    exact ⟨s', h1, h2⟩
  · exact c5_free_right_coalesce_or_insert.2 50 Exp.c2st 8 16 (by decide)
      (Or.inr (by decide))

/-- C7 (amended): the no-two-adjacent-FREE invariant does not hold for the
explicit engine in general (see the counterexample); what the coalescer
guarantees is per call: freeing a block whose right neighbor is FREE
merges the pair into one FREE block whose payload spans both (payload
`cs + 8 + sizeBits rh`), leaving the free count unchanged, so that freed
block and that neighbor do not remain as an adjacent FREE pair. -/
theorem c7_per_call_right_coalesce (fuel : Nat) (s : Exp.St) (curr cs rh : Nat)
    (hcs : cs = sizeBits (s.mem curr)) (hs16 : 16 ≤ cs)
    (hre : curr + 8 + cs ≠ s.segEnd)
    (hrh : rh = s.mem (curr + 8 + cs)) (hfree : statusBits rh = Exp.FREE)
    (hrpd : s.mem (curr + 8 + cs + 8) = 0 ∨ s.mem (curr + 8 + cs + 8) + 16 < curr)
    (hrnd : s.mem (curr + 8 + cs + 16) = 0 ∨ curr + 8 + cs < s.mem (curr + 8 + cs + 16))
    (hovf : cs + 8 + rh < W) :
    ∃ s', Exp.myfree fuel s (curr + 8) = Res.ok s' ∧
      s'.mem curr = cs + 8 + rh ∧
      sizeBits (s'.mem curr) = cs + 8 + sizeBits rh ∧
      statusBits (s'.mem curr) = Exp.FREE ∧
      s'.freeNum = s.freeNum := by
  obtain ⟨s', h1, h2, h3, h4, _, _, _, _, _, _, h11, _, _, _⟩ :=
    myfree_coalesce fuel s curr cs hcs hs16 hre rh hrh hfree _ rfl _ rfl hrpd hrnd hovf
  exact ⟨s', h1, h2, h3, h4, h11⟩

/-- Witness for the amended C7 in the C9 scenario state: freeing the block
at 16 merges it with the FREE neighbor at 32 into one 40-byte FREE block. -/
theorem c7_witness :
    ∃ s', Exp.myfree 50 Exp.c9st (8 + 8) = Res.ok s' ∧
      s'.mem 8 = 16 + 8 + 23 ∧
      sizeBits (s'.mem 8) = 16 + 8 + sizeBits 23 ∧
      statusBits (s'.mem 8) = Exp.FREE ∧
      s'.freeNum = Exp.c9st.freeNum :=
  c7_per_call_right_coalesce 50 Exp.c9st 8 16 23
    (by decide) (by decide) (by decide) (by decide) (by decide)
    (Or.inl (by decide)) (Or.inr (by decide)) (by decide)

/-- C6 (amended): `init(start, size)` succeeds iff `start` is non-null and
`size` is at least `8 + 16` for the explicit engine — but for the implicit
variant the guard only requires `size > 8` (the claimed `8 + 8` threshold
is wrong: size 9 is accepted, see the counterexample).  On success the
segment holds exactly one FREE block spanning the whole segment — header
`(size - 8) | FREE` at `start`, and for an 8-aligned size the walk step
`start + 8 + payload` lands exactly on `start + size` — with both link
words "none" (0), head = tail = that block, and count 1 in the explicit
engine. -/
theorem c6_init_success_iff_and_postconditions :
    (∀ (s : Exp.St) (start size : Nat),
      (Exp.myinit s start size).1 = true ↔ (start ≠ 0 ∧ 8 + 16 ≤ size)) ∧
    (∀ (s : Exp.St) (start size : Nat), 0 < start → 8 + 16 ≤ size →
      (Exp.myinit s start size).2.mem start = markFree (size - 8) ∧
      markFree (size - 8) = (size - 8) ||| 7 ∧
      (Exp.myinit s start size).2.mem (start + 8) = 0 ∧
      (Exp.myinit s start size).2.mem (start + 16) = 0 ∧
      (Exp.myinit s start size).2.listHead = start ∧
      (Exp.myinit s start size).2.listEnd = start ∧
      (Exp.myinit s start size).2.freeNum = 1 ∧
      (Exp.myinit s start size).2.segStart = start ∧
      (Exp.myinit s start size).2.segEnd = start + size ∧
      statusBits (markFree (size - 8)) = Exp.FREE ∧
      (8 ∣ size → size < W →
        start + 8 + sizeBits ((Exp.myinit s start size).2.mem start) = start + size)) ∧
    (∀ (s : Imp.St) (start size : Nat),
      (Imp.myinit s start size).1 = true ↔ (start ≠ 0 ∧ 8 < size)) ∧
    (∀ (s : Imp.St) (start size : Nat), 0 < start → 8 < size →
      (Imp.myinit s start size).2.mem start = markFree (size - 8) ∧
      (Imp.myinit s start size).2.segStart = start ∧
      (Imp.myinit s start size).2.segEnd = start + size ∧
      (8 ∣ size → size < W →
        start + 8 + sizeBits ((Imp.myinit s start size).2.mem start) = start + size)) := by
  refine ⟨fun s start size => ?_, fun s start size h0 hsz => ?_,
    fun s start size => ?_, fun s start size h0 hsz => ?_⟩
  · rw [Exp.myinit, Exp.HEADER_LENGTH, Exp.MIN_BLOCK_SIZE]
    by_cases hc : start = 0 ∨ size < 8 + 16
    · rw [if_pos hc]
      constructor
      · intro hf
        simp at hf
      · intro hok
        omega
    · rw [if_neg hc]
      constructor
      · intro _
        omega
      · intro _
        rfl
  · rw [Exp.myinit, Exp.HEADER_LENGTH, Exp.MIN_BLOCK_SIZE,
      if_neg (by omega : ¬(start = 0 ∨ size < 8 + 16))]
    dsimp only [Exp.get_curr_prev, Exp.get_curr_next, Exp.HEADER_LENGTH]
    refine ⟨?_, (markFree_eq_lor _).symm ▸ rfl, ?_, ?_, rfl, rfl, rfl, rfl, rfl, ?_, ?_⟩
    · rw [writeW_ne _ _ _ _ (by omega), writeW_ne _ _ _ _ (by omega), writeW_eq]
    · rw [writeW_ne _ _ _ _ (by omega), writeW_eq]
    · rw [writeW_eq]
    · rw [statusBits, markFree, Exp.FREE]
      omega
    · intro hdvd hW
      rw [writeW_ne _ _ _ _ (by omega), writeW_ne _ _ _ _ (by omega), writeW_eq]
      obtain ⟨k, hk⟩ := hdvd
      have hmW : size - 8 - (size - 8) % 8 + 7 < W := by omega
      rw [sizeBits, markFree, Nat.mod_eq_of_lt hmW]
      omega
  · rw [Imp.myinit, Imp.HEADER_LENGTH]
    by_cases hc : start = 0 ∨ size ≤ 8
    · rw [if_pos hc]
      constructor
      · intro hf
        simp at hf
      · intro hok
        omega
    · rw [if_neg hc]
      constructor
      · intro _
        omega
      · intro _
        rfl
  · rw [Imp.myinit, Imp.HEADER_LENGTH,
      if_neg (by omega : ¬(start = 0 ∨ size ≤ 8))]
    dsimp only
    refine ⟨?_, rfl, rfl, ?_⟩
    · rw [writeW_eq]
    · intro hdvd hW
      rw [writeW_eq]
      obtain ⟨k, hk⟩ := hdvd
      have hmW : size - 8 - (size - 8) % 8 + 7 < W := by omega
      rw [sizeBits, markFree, Nat.mod_eq_of_lt hmW]
      omega

/-- Witness for the amended C6 at `start = 8`, `size = 1024` (explicit)
and `size = 9` (implicit success just above the 8-byte guard). -/
theorem c6_witness :
    ((Exp.myinit Exp.initSt 8 1024).1 = true ∧
      (Exp.myinit Exp.initSt 8 1024).2.mem 8 = markFree 1016 ∧
      (Exp.myinit Exp.initSt 8 1024).2.freeNum = 1) ∧
    ((Imp.myinit Imp.initSt 8 9).1 = true ∧
      ¬((Imp.myinit Imp.initSt 8 8).1 = true)) := by
  constructor
  · refine ⟨?_, ?_, ?_⟩
    · exact (c6_init_success_iff_and_postconditions.1 Exp.initSt 8 1024).2
        ⟨by decide, by decide⟩
    · exact (c6_init_success_iff_and_postconditions.2.1 Exp.initSt 8 1024
        (by decide) (by decide)).1
    · exact (c6_init_success_iff_and_postconditions.2.1 Exp.initSt 8 1024
        (by decide) (by decide)).2.2.2.2.2.2.1
  · constructor
    · exact (c6_init_success_iff_and_postconditions.2.2.1 Imp.initSt 8 9).2
        ⟨by decide, by decide⟩
    · intro hc
      have h2 := (c6_init_success_iff_and_postconditions.2.2.1 Imp.initSt 8 8).1 hc
      omega

/-- C4: first-fit with controlled splitting.  (1) After `init(start,1024)`,
`allocate(24)` returns `start + 8`, writes the USED header 24 at `start`
and the FREE header `984 | FREE` at `start + 32`, makes that remainder the
whole free list, and the heap walker reaches the segment end (the full
`traverse_heap` check passes).  (2) At the split threshold: `allocate(992)`
on the fresh 1024-byte heap leaves a leftover of exactly `8 + 16`, so it
splits, leaving a 16-byte FREE remainder at 1008.  (3) One alignment step
below, `allocate(1000)` has leftover 16 `< 8 + 16`, so the block is
absorbed whole (header 1016 USED) and the free list becomes empty.
(4) First-fit skips a too-small first free block: in the state with free
blocks 8 (payload 16) and 56 (payload 968), `allocate(100)` picks 56,
returns 64, and puts the 856-byte FREE remainder at 168 into the chosen
block's free-list position (the first block's next link now points to 168,
head stays 8, tail becomes 168). -/
theorem c4_first_fit_split (start : Nat) (h0 : 0 < start) (f : Nat) :
    (∃ s', Exp.mymalloc (f + 1) (Exp.myinit Exp.initSt start 1024).2 24 =
        Res.ok (start + 8, s') ∧
      s'.mem start = 24 ∧ s'.mem (start + 32) = markFree 984 ∧
      s'.listHead = start + 32 ∧ s'.listEnd = start + 32 ∧ s'.freeNum = 1 ∧
      (∀ g : Nat, Exp.traverse_heap (g + 3) s' = Res.ok true)) ∧
    (Exp.runPtr (Exp.mymalloc 50 Exp.st0 992) = some 16 ∧
      Exp.runMem (Exp.mymalloc 50 Exp.st0 992) 8 = some 992 ∧
      Exp.runMem (Exp.mymalloc 50 Exp.st0 992) 1008 = some (markFree 16) ∧
      (Exp.runSt (Exp.mymalloc 50 Exp.st0 992)).listHead = 1008 ∧
      (Exp.runSt (Exp.mymalloc 50 Exp.st0 992)).freeNum = 1) ∧
    (Exp.runPtr (Exp.mymalloc 50 Exp.st0 1000) = some 16 ∧
      Exp.runMem (Exp.mymalloc 50 Exp.st0 1000) 8 = some 1016 ∧
      (Exp.runSt (Exp.mymalloc 50 Exp.st0 1000)).listHead = 0 ∧
      (Exp.runSt (Exp.mymalloc 50 Exp.st0 1000)).listEnd = 0 ∧
      (Exp.runSt (Exp.mymalloc 50 Exp.st0 1000)).freeNum = 0) ∧
    (statusBits (Exp.c4st.mem 8) = Exp.FREE ∧ sizeBits (Exp.c4st.mem 8) = 16 ∧
      Exp.c4st.listHead = 8 ∧
      Exp.runPtr (Exp.mymalloc 50 Exp.c4st 100) = some 64 ∧
      Exp.runMem (Exp.mymalloc 50 Exp.c4st 100) 56 = some 104 ∧
      Exp.runMem (Exp.mymalloc 50 Exp.c4st 100) 168 = some (markFree 856) ∧
      Exp.runMem (Exp.mymalloc 50 Exp.c4st 100) 8 = some (markFree 16) ∧
      Exp.runMem (Exp.mymalloc 50 Exp.c4st 100) 24 = some 168 ∧
      (Exp.runSt (Exp.mymalloc 50 Exp.c4st 100)).listHead = 8 ∧
      (Exp.runSt (Exp.mymalloc 50 Exp.c4st 100)).listEnd = 168 ∧
      (Exp.runSt (Exp.mymalloc 50 Exp.c4st 100)).freeNum = 2) := by
  refine ⟨?_, by decide, by decide, by decide⟩
  have e1 : Exp.roundup 24 ALIGNMENT = 24 := by decide
  have e2 : sizeBits (markFree 1016) = 1016 := by decide
  have e3 : sizeBits 24 = 24 := by decide
  have e4 : sizeBits (markFree 984) = 984 := by decide
  have e5 : statusBits (markFree 984) = 7 := by decide
  have e6 : statusBits (24 : Nat) = 0 := by decide
  rw [Exp.myinit, if_neg (by simp [Exp.HEADER_LENGTH, Exp.MIN_BLOCK_SIZE]; omega)]
  dsimp only [Exp.mymalloc]
  simp only [Exp.mallocLoop, Exp.get_curr_prev, Exp.get_curr_next, Exp.get_prev_free_block,
    Exp.get_next_free_block, Exp.HEADER_LENGTH, Exp.MIN_BLOCK_SIZE, e1]
  rw [if_pos (Nat.le_refl start)]
  rw [if_neg (by omega : ¬(start = 0))]
  rw [writeW_ne _ _ _ _ (by omega), writeW_ne _ _ _ _ (by omega), writeW_eq, e2]
  rw [if_pos (by omega : (24 : Nat) ≤ 1016)]
  rw [if_neg (by omega : ¬((1016 : Nat) - 24 < 8 + 16))]
  simp (disch := omega) only [writeW_ne, writeW_eq2, if_pos, if_neg, if_true]
  refine ⟨_, rfl, ?_, ?_, ?_, ?_, ?_, ?_⟩
  · simp (disch := omega) only [writeW_ne, writeW_eq2]
    decide
  · simp (disch := omega) only [writeW_ne, writeW_eq2]
  · dsimp only
  · dsimp only
  · rfl
  · intro g
    dsimp only [Exp.traverse_heap]
    simp (disch := omega) [Exp.thLoop, writeW_ne, writeW_eq2, e2, e3, e4, e5, e6,
      Exp.MIN_BLOCK_SIZE, Exp.FREE, Exp.USED, Exp.HEADER_LENGTH]

/-- Witness for C4 at `start = 8` with minimal fuel. -/
theorem c4_witness :
    Exp.runPtr (Exp.mymalloc (0 + 1) (Exp.myinit Exp.initSt 8 1024).2 24) = some (8 + 8) := by
  obtain ⟨⟨s', hrun, _⟩, _⟩ := c4_first_fit_split 8 (by decide) 0
  rw [hrun]
  rfl

/-- C9: successful reallocation preserves the payload.  Part 1 (implicit
variant, in-place path): when the existing block already satisfies the
request, `myrealloc` returns `old_ptr` and writes at most the one trailing
header at `old_ptr + needed`; every other address — in particular the
whole first `min(old_size, new_size)` bytes of payload, which lie strictly
below `old_ptr + needed` — is unchanged.  Part 2 (explicit engine,
allocate-copy-free fallback, on the C9 scenario heap with arbitrary
payload words `v0 v1` at 16 and 24): `reallocate(16, 200)` absorbs the
16-byte FREE right neighbor (payload grows to 40, still short of 200),
falls back to allocating at 88, copies exactly the ORIGINAL 16 payload
bytes — the returned payload holds `v0, v1`, and the following word at 104
still holds 0, whereas a copy of the post-absorption 40-byte length would
have written the absorbed neighbor's stale header 23 there — and frees the
widened old block (header `40 | FREE = 47` at 8, back at the list head). -/
theorem c9_realloc_preserves_payload :
    (∀ (fuel : Nat) (s : Imp.St) (old_ptr new_size : Nat), old_ptr ≠ 0 →
      Imp.roundup new_size ALIGNMENT ≤ s.mem (old_ptr - 8) →
      ∃ m', Imp.myrealloc fuel s old_ptr new_size =
          Res.ok (old_ptr, { s with mem := m' }) ∧
        ∀ a, a ≠ old_ptr + Imp.roundup new_size ALIGNMENT → m' a = s.mem a) ∧
    (∀ f v0 v1 : Nat, ∃ s', Exp.c9run (f + 3) v0 v1 = Res.ok (88, s') ∧
      s'.mem 88 = v0 ∧ s'.mem 96 = v1 ∧ s'.mem 104 = 0 ∧ Exp.c9st.mem 32 = 23 ∧
      s'.mem 8 = markFree 40 ∧ s'.listHead = 8 ∧ s'.freeNum = 2) := by
  constructor
  · intro fuel s old_ptr new_size h0 hfit
    rw [Imp.myrealloc, if_neg h0]
    simp only [Imp.HEADER_LENGTH] at hfit ⊢
    rw [if_pos hfit]
    by_cases hsp : (8 : Nat) < s.mem (old_ptr - 8) - Imp.roundup new_size ALIGNMENT
    · rw [if_pos hsp]
      exact ⟨_, rfl, fun a ha => writeW_ne _ _ _ _ ha⟩
    · rw [if_neg hsp]
      exact ⟨s.mem, rfl, fun a _ => rfl⟩
  · intro f v0 v1
    have h8 : Exp.c9st.mem 8 = 16 := by decide
    have h32 : Exp.c9st.mem 32 = 23 := by decide
    have h40 : Exp.c9st.mem 40 = 0 := by decide
    have h48 : Exp.c9st.mem 48 = 80 := by decide
    have h56 : Exp.c9st.mem 56 = 16 := by decide
    have h80 : Exp.c9st.mem 80 = 951 := by decide
    have h96 : Exp.c9st.mem 96 = 0 := by decide
    have h104 : Exp.c9st.mem 104 = 0 := by decide
    have hss : Exp.c9st.segStart = 8 := by decide
    have hse : Exp.c9st.segEnd = 1032 := by decide
    have hhd : Exp.c9st.listHead = 32 := by decide
    have hed : Exp.c9st.listEnd = 80 := by decide
    have hfn : Exp.c9st.freeNum = 2 := by decide
    have e200 : Exp.roundup 200 ALIGNMENT = 200 := by decide
    have efn1 : (2 + (W - 1)) % W = 1 := by decide
    have efn2 : ((1 + 1) % W : Nat) = 2 := by decide
    have es16 : sizeBits (16 : Nat) = 16 := by decide
    have es23 : sizeBits (23 : Nat) = 16 := by decide
    have et23 : statusBits (23 : Nat) = 7 := by decide
    have et16 : statusBits (16 : Nat) = 0 := by decide
    have es951 : sizeBits (951 : Nat) = 944 := by decide
    have es200 : sizeBits (200 : Nat) = 200 := by decide
    have es47 : sizeBits (47 : Nat) = 40 := by decide
    have e40 : ((16 + 8 + 16) % W : Nat) = 40 := by decide
    have em40 : markFree 40 = 47 := by decide
    have em736 : markFree 736 = 743 := by decide
    have hA : Exp.absorbLoop 8 (f + 3) ⟨8, 1032, 32, 80, 2, (writeW (writeW Exp.c9st.mem 16 v0) 24 v1)⟩ 16
        = Res.ok (⟨8, 1032, 80, 80, 1, (writeW (writeW (writeW (writeW Exp.c9st.mem 16 v0) 24 v1) 32 16) 88 0)⟩, 40) := by
      simp (disch := omega) [Exp.absorbLoop, Exp.remove_block_from_freelist,
        Exp.get_prev_free_block, Exp.get_next_free_block, Exp.get_curr_prev, Exp.get_curr_next,
        Exp.HEADER_LENGTH, Exp.FREE, writeW_ne, writeW_eq2, h32, h40, h48, h56,
        es23, et23, es16, et16, efn1, e40]
    have hB : Exp.mymalloc (f + 3) ⟨8, 1032, 80, 80, 1, (writeW (writeW (writeW (writeW Exp.c9st.mem 16 v0) 24 v1) 32 16) 88 0)⟩ 200
        = Res.ok (88, ⟨8, 1032, 288, 288, 1, (writeW (writeW (writeW (writeW (writeW (writeW (writeW (writeW Exp.c9st.mem 16 v0) 24 v1) 32 16) 88 0) 80 200) 288 743) 296 0) 304 0)⟩) := by
      simp (disch := omega) [Exp.mymalloc, Exp.mallocLoop,
        Exp.get_prev_free_block, Exp.get_next_free_block, Exp.get_curr_prev, Exp.get_curr_next,
        Exp.HEADER_LENGTH, Exp.MIN_BLOCK_SIZE, writeW_ne, writeW_eq, writeW_eq2, h80, h96,
        e200, es951, es200, em736]
    have r16 : (writeW (writeW (writeW (writeW (writeW (writeW (writeW (writeW Exp.c9st.mem 16 v0) 24 v1) 32 16) 88 0) 80 200) 288 743) 296 0) 304 0) 16 = v0 := by
      simp (disch := omega) only [writeW_ne, writeW_eq]
    have r24 : (writeW (writeW (writeW (writeW (writeW (writeW (writeW (writeW Exp.c9st.mem 16 v0) 24 v1) 32 16) 88 0) 80 200) 288 743) 296 0) 304 0) 24 = v1 := by
      simp (disch := omega) only [writeW_ne, writeW_eq]
    have hC : Exp.memcpyWords (writeW (writeW (writeW (writeW (writeW (writeW (writeW (writeW Exp.c9st.mem 16 v0) 24 v1) 32 16) 88 0) 80 200) 288 743) 296 0) 304 0) 88 16 2 = (writeW (writeW (writeW (writeW (writeW (writeW (writeW (writeW (writeW (writeW Exp.c9st.mem 16 v0) 24 v1) 32 16) 88 0) 80 200) 288 743) 296 0) 304 0) 88 v0) 96 v1) := by
      simp (disch := omega) [Exp.memcpyWords, r16, r24, writeW_ne]
    have hD : Exp.myfree (f + 3) ⟨8, 1032, 288, 288, 1, (writeW (writeW (writeW (writeW (writeW (writeW (writeW (writeW (writeW (writeW (writeW Exp.c9st.mem 16 v0) 24 v1) 32 16) 88 0) 80 200) 288 743) 296 0) 304 0) 88 v0) 96 v1) 8 47)⟩ 16
        = Res.ok ⟨8, 1032, 8, 288, 2, (writeW (writeW (writeW (writeW (writeW (writeW (writeW (writeW (writeW (writeW (writeW (writeW (writeW (writeW (writeW Exp.c9st.mem 16 v0) 24 v1) 32 16) 88 0) 80 200) 288 743) 296 0) 304 0) 88 v0) 96 v1) 8 47) 8 47) 16 0) 24 288) 296 8)⟩ := by
      simp (disch := omega) [Exp.myfree, Exp.insert_block_into_freelist,
        Exp.get_prev_free_block, Exp.get_next_free_block, Exp.get_curr_prev, Exp.get_curr_next,
        Exp.HEADER_LENGTH, Exp.FREE, Exp.NON_EXISTENT, writeW_ne, writeW_eq, writeW_eq2,
        h56, et16, es47, em40, efn2]
    have s1 : Exp.c9run (f + 3) v0 v1
        = Exp.myrealloc (f + 3) ⟨8, 1032, 32, 80, 2, (writeW (writeW Exp.c9st.mem 16 v0) 24 v1)⟩ 16 200 := by
      simp (disch := omega) [Exp.c9run, hss, hse, hhd, hed, hfn]
    have s2 : Exp.myrealloc (f + 3) ⟨8, 1032, 32, 80, 2, (writeW (writeW Exp.c9st.mem 16 v0) 24 v1)⟩ 16 200
        = Res.ok (88, ⟨8, 1032, 8, 288, 2, (writeW (writeW (writeW (writeW (writeW (writeW (writeW (writeW (writeW (writeW (writeW (writeW (writeW (writeW (writeW Exp.c9st.mem 16 v0) 24 v1) 32 16) 88 0) 80 200) 288 743) 296 0) 304 0) 88 v0) 96 v1) 8 47) 8 47) 16 0) 24 288) 296 8)⟩) := by
      simp (disch := omega) [Exp.myrealloc, hA, hB, hC, hD, e200, es16, em40,
        h8, writeW_ne, Exp.HEADER_LENGTH, Exp.MIN_BLOCK_SIZE]
    refine ⟨⟨8, 1032, 8, 288, 2, (writeW (writeW (writeW (writeW (writeW (writeW (writeW (writeW (writeW (writeW (writeW (writeW (writeW (writeW (writeW Exp.c9st.mem 16 v0) 24 v1) 32 16) 88 0) 80 200) 288 743) 296 0) 304 0) 88 v0) 96 v1) 8 47) 8 47) 16 0) 24 288) 296 8)⟩, s1.trans s2, ?_, ?_, ?_, h32, ?_, rfl, rfl⟩
    · simp (disch := omega) only [writeW_ne, writeW_eq]
    · simp (disch := omega) only [writeW_ne, writeW_eq]
    · simp (disch := omega) only [writeW_ne, h104]
    · simp (disch := omega) only [writeW_ne, writeW_eq, em40]

/-- Witness for C9: the implicit in-place path on a concrete heap (block
of payload 104 at 8, shrink to 40), and the explicit fallback at payload
words 12345 and 54321. -/
theorem c9_witness :
    (∃ m', Imp.myrealloc 50 (Imp.runSt (Imp.mymalloc 50 Imp.ist0 100)) 16 40 =
        Res.ok (16, { Imp.runSt (Imp.mymalloc 50 Imp.ist0 100) with mem := m' }) ∧
      ∀ a, a ≠ 16 + Imp.roundup 40 ALIGNMENT → m' a =
        (Imp.runSt (Imp.mymalloc 50 Imp.ist0 100)).mem a) ∧
    (∃ s', Exp.c9run (0 + 3) 12345 54321 = Res.ok (88, s') ∧
      s'.mem 88 = 12345 ∧ s'.mem 96 = 54321 ∧ s'.mem 104 = 0 ∧ Exp.c9st.mem 32 = 23 ∧
      s'.mem 8 = markFree 40 ∧ s'.listHead = 8 ∧ s'.freeNum = 2) :=
  ⟨c9_realloc_preserves_payload.1 50 (Imp.runSt (Imp.mymalloc 50 Imp.ist0 100)) 16 40
      (by decide) (by decide),
   c9_realloc_preserves_payload.2 0 12345 54321⟩
